import Mathlib

/-!
Verification development for the Kiyotaki–Moore (1997) "Credit Cycles"
shooting-algorithm reproduction (`kiyotaki_moore_1997.py`).

Embedding conventions:
* Python float arithmetic is modelled by exact rational arithmetic (`ℚ`).
* Python's `/`, which raises `ZeroDivisionError` on a zero divisor, is
  modelled by `checkedDiv` (returning `Except DomainError ℚ`) where the
  raising behaviour matters; elsewhere total field division on `ℚ` is used.
* `scipy.optimize.fsolve(f, x0)` is an external numerical routine; it is
  modelled as an abstract deterministic function `Solver` taking the residual
  function `f` and the initial point `x0`, exactly the two arguments the
  source passes.
* The NumPy arrays `q_mat`, `K_mat`, `B_mat` (one row per guess, initialised
  to zeros) are modelled row-wise: the source's inner loop touches only row
  `s`, reads only entries of row `s`, and row `s`'s evolution depends only on
  the guess `q_vec[s]`, so a row is `simulate` applied to that guess.  Arrays
  are total functions `ℕ → ℚ` initialised to `0` with pointwise update `upd`,
  mirroring `np.zeros` plus element assignment.
-/

namespace KM1997

/-- Structural parameters of the model, mirroring the module-level constants
`R`, `λ`, `η`, `a`, `Δa`, `π`, `ϕ` of the source (`λ` is spelled `lam`
because `λ` is reserved in Lean). -/
structure Params where
  R : ℚ
  lam : ℚ
  η : ℚ
  a : ℚ
  Δa : ℚ
  π : ℚ
  ϕ : ℚ
deriving DecidableEq

/-- `periods = 100+1` from the source. -/
def periods : ℕ := 100 + 1

/-- `trials = 1000` from the source. -/
def trials : ℕ := 1000

/-- The parameter values of the source run: `R = 1.01`, `λ = 0.975`,
`η = 0.10`, `a = 1.0`, `Δa = 0.01`, `π = 0.1`, `ϕ = 20.0`. -/
def refParams : Params :=
  { R := 1.01, lam := 0.975, η := 0.10, a := 1.0, Δa := 0.01, π := 0.1, ϕ := 20.0 }

/-- The denominator `λ*π + (1-λ)*(1 - R + π*R)` appearing in the source's
`q_star` expression. -/
def q_star_den (P : Params) : ℚ :=
  P.lam * P.π + (1 - P.lam) * (1 - P.R + P.π * P.R)

/-- `q_star = (R/(R-1))*(π*a - (1-λ)*(1 - R + π*R)*ϕ) / (λ*π + (1-λ)*(1 - R + π*R))`. -/
def q_star (P : Params) : ℚ :=
  (P.R / (P.R - 1)) * (P.π * P.a - (1 - P.lam) * (1 - P.R + P.π * P.R) * P.ϕ) / q_star_den P

/-- `ν = ((R - 1)/R)*(q_star/η)`. -/
def ν (P : Params) : ℚ := ((P.R - 1) / P.R) * (q_star P / P.η)

/-- `K_star = ((R-1)/R)*q_star + ν`. -/
def K_star (P : Params) : ℚ := ((P.R - 1) / P.R) * q_star P + ν P

/-- `B_star = (1/(R-1))*(a - ϕ + λ*ϕ)*K_star`. -/
def B_star (P : Params) : ℚ := (1 / (P.R - 1)) * (P.a - P.ϕ + P.lam * P.ϕ) * K_star P

/-- The single failure mode of the steady-state computation: a Python
`ZeroDivisionError` raised by `/` on a zero divisor. -/
inductive DomainError where
  | divByZero
deriving DecidableEq

/-- Python division: raises on a zero divisor, otherwise exact quotient. -/
def checkedDiv (x y : ℚ) : Except DomainError ℚ :=
  if y = 0 then Except.error DomainError.divByZero else Except.ok (x / y)

/-- The steady-state computation with Python's raising division semantics.
The guards appear in the order in which the source's divisions are evaluated:
`R/(R-1)` and `…/den` inside `q_star`, then `(R-1)/R` and `q_star/η` inside
`ν` (the later divisions by `R` and `R-1` in `K_star` and `B_star` repeat
divisors already checked). -/
def steadyStateChecked (P : Params) : Except DomainError (ℚ × ℚ × ℚ × ℚ) :=
  if P.R - 1 = 0 then Except.error DomainError.divByZero
  else if q_star_den P = 0 then Except.error DomainError.divByZero
  else if P.R = 0 then Except.error DomainError.divByZero
  else if P.η = 0 then Except.error DomainError.divByZero
  else Except.ok (q_star P, ν P, K_star P, B_star P)

/-- The steady-state formulas as written in the specification (§4.1):
`q* = (R/(R-1)) * (π*a - (1-λ)*(1-R+π*R)*ϕ) / (λ*π + (1-λ)*(1-R+π*R))`,
`ν = ((R-1)/R) * (q*/η)`, `K* = ((R-1)/R) * q* + ν`,
`B* = (1/(R-1)) * (a - ϕ + λ*ϕ) * K*`.  Stated separately from the source
definitions so the two can be compared. -/
def steadyStateSpecForm (P : Params) : ℚ × ℚ × ℚ × ℚ :=
  let q := (P.R / (P.R - 1)) * (P.π * P.a - (1 - P.lam) * (1 - P.R + P.π * P.R) * P.ϕ) /
    (P.lam * P.π + (1 - P.lam) * (1 - P.R + P.π * P.R))
  let n := ((P.R - 1) / P.R) * (q / P.η)
  let k := ((P.R - 1) / P.R) * q + n
  (q, n, k, (1 / (P.R - 1)) * (P.a - P.ϕ + P.lam * P.ϕ) * k)

/-- `q_vec = np.linspace(q_star*(1.0037-0.0005), q_star*(1.0037+0.0005), trials)`:
entry `i` of a `trials`-point inclusive linspace is
`start + (stop - start) * i / (trials - 1)`. -/
def q_vec (P : Params) (i : ℕ) : ℚ :=
  q_star P * (1.0037 - 0.0005) +
    (q_star P * (1.0037 + 0.0005) - q_star P * (1.0037 - 0.0005)) * i / ((trials : ℚ) - 1)

/-- The guess grid as a finite list of its `trials` entries. -/
def gridList : List ℚ := List.ofFn (fun i : Fin trials => q_vec refParams i)

/-- The productivity-shock schedule of the source run:
`Δt = np.zeros(periods); Δt[1] = Δa`. -/
def Δt_run : ℕ → ℚ := fun t => if t = 1 then refParams.Δa else 0

/-- An all-zero shock schedule (used by the no-shock boundary property). -/
def Δzero : ℕ → ℚ := fun _ => 0

/-- The residual function `f` defined inside the solve loop.  Arguments:
`Kp = K_mat[s, t-1]`, `Bp = B_mat[s, t-1]`, `qt = q_mat[s, t]`, `Δ = Δt[t]`,
and the unknown triple `v = (q_tplus1, K_t, B_t)`.  Components are the
source's `first_eq`, `second_eq`, `third_eq`. -/
def fResid (P : Params) (Kp Bp qt Δ : ℚ) (v : ℚ × ℚ × ℚ) : ℚ × ℚ × ℚ :=
  (-(v.1 - P.R * qt + P.R * (v.2.1 - ν P)),
   -(v.2.1 - (1 - P.π) * P.lam * Kp -
      (P.π / (P.ϕ + qt - v.1 / P.R)) * ((P.a + Δ + qt + P.lam * P.ϕ) * Kp - P.R * Bp)),
   -(v.2.2 - P.R * Bp - qt * (v.2.1 - Kp) - P.ϕ * (v.2.1 - P.lam * Kp) + (P.a + Δ) * Kp))

/-- Abstract deterministic root-finder standing for `scipy.optimize.fsolve`:
it receives the residual function and the initial point, exactly the
arguments the source passes, and returns a triple. -/
def Solver : Type := ((ℚ × ℚ × ℚ) → ℚ × ℚ × ℚ) → (ℚ × ℚ × ℚ) → ℚ × ℚ × ℚ

/-- The solver behaviour that returns its initial point unchanged; this is
what an exact root-finder does whenever the initial point already solves the
system. -/
def solverId : Solver := fun _ x0 => x0

/-- A solver behaviour standing for a run in which every per-period solve
fails to converge: `fsolve` only warns on non-convergence and returns its
last iterate, here a triple that does not satisfy the equations. -/
def solverBad : Solver := fun _ _ => (q_star refParams, 0, 0)

/-- One row of `q_mat`/`K_mat`/`B_mat`: three `ℕ`-indexed arrays. -/
structure Traj where
  q : ℕ → ℚ
  K : ℕ → ℚ
  B : ℕ → ℚ

/-- Pointwise array update, modelling `arr[i] = v`. -/
def upd (f : ℕ → ℚ) (i : ℕ) (v : ℚ) : ℕ → ℚ := fun j => if j = i then v else f j

/-- Row `s` before the solve loop: all entries zero except
`q[0] = q_star` (`q_mat[:,0] = q_vecSS`), `q[1] = guess` (`q_mat[:,1] = q_vec`),
`K[0] = K_star`, `B[0] = B_star`. -/
def initTraj (P : Params) (guess : ℚ) : Traj :=
  { q := upd (upd (fun _ => 0) 1 guess) 0 (q_star P)
    K := upd (fun _ => 0) 0 (K_star P)
    B := upd (fun _ => 0) 0 (B_star P) }

/-- One iteration of the inner loop at index `t`:
`solution = opt.fsolve(f, (q_star, K_star, B_star))` followed by
`q_mat[s, t+1], K_mat[s, t], B_mat[s, t] = solution`. -/
def stepT (P : Params) (S : Solver) (Δs : ℕ → ℚ) (st : Traj) (t : ℕ) : Traj :=
  let sol := S (fResid P (st.K (t - 1)) (st.B (t - 1)) (st.q t) (Δs t))
    (q_star P, K_star P, B_star P)
  { q := upd st.q (t + 1) sol.1
    K := upd st.K t sol.2.1
    B := upd st.B t sol.2.2 }

/-- The row after the loop iterations `t = 1, …, n` have run. -/
def simN (P : Params) (S : Solver) (Δs : ℕ → ℚ) (guess : ℚ) : ℕ → Traj
  | 0 => initTraj P guess
  | n + 1 => stepT P S Δs (simN P S Δs guess n) (n + 1)

/-- The completed row for one guess: the loop `for t in range(1, periods-1)`
runs iterations `t = 1, …, periods - 2`. -/
def simulate (P : Params) (S : Solver) (Δs : ℕ → ℚ) (guess : ℚ) : Traj :=
  simN P S Δs guess (periods - 2)

/-- `q_vec_abs[i] = abs(1 - q_mat[i, -1]/q_star)`: the score of guess `i`
(`q_mat[i, -1]` is the terminal price, index `periods - 1`). -/
def q_vec_abs (S : Solver) (i : ℕ) : ℚ :=
  |1 - (simulate refParams S Δt_run (q_vec refParams i)).q (periods - 1) / q_star refParams|

/-- `np.min` of a list (the source's array is nonempty; the `[]` case is
arbitrary). -/
def npMin : List ℚ → ℚ
  | [] => 0
  | x :: t => t.foldl min x

/-- `np.argwhere(l == m)[0, 0]`: index of the first entry equal to `m`. -/
def firstIdxOf (m : ℚ) : List ℚ → ℕ
  | [] => 0
  | x :: t => if x = m then 0 else firstIdxOf m t + 1

/-- `index = np.argwhere(q_vec_abs == np.min(q_vec_abs))[0, 0]`. -/
def selectIdx (l : List ℚ) : ℕ := firstIdxOf (npMin l) l

/-- The vector `q_vec_abs` as a list over the `trials` guesses. -/
def scoresList (S : Solver) : List ℚ := List.ofFn (fun i : Fin trials => q_vec_abs S i)

/-- The winning index of the search. -/
def searchIndex (S : Solver) : ℕ := selectIdx (scoresList S)

/-- Everything the run keeps from the search: the winning index, the winning
guess `q_vec[index]`, its score `q_vec_abs[index]`, and the winning row's
three arrays (used for `B_graph`, `K_graph`, `q_graph`). -/
def searchResult (S : Solver) : ℕ × ℚ × ℚ × (ℕ → ℚ) × (ℕ → ℚ) × (ℕ → ℚ) :=
  let i := searchIndex S
  let tr := simulate refParams S Δt_run (q_vec refParams i)
  (i, q_vec refParams i, q_vec_abs S i, tr.q, tr.K, tr.B)

end KM1997

namespace KM1997

theorem upd_self (f : ℕ → ℚ) (i : ℕ) (v : ℚ) : upd f i v i = v := if_pos rfl

theorem upd_other (f : ℕ → ℚ) (i : ℕ) (v : ℚ) {j : ℕ} (h : j ≠ i) : upd f i v j = f j :=
  if_neg h

theorem simN_q_stable (P : Params) (S : Solver) (Δs : ℕ → ℚ) (g : ℚ) (n : ℕ) {t : ℕ}
    (h : t ≤ n + 1) : (simN P S Δs g (n + 1)).q t = (simN P S Δs g n).q t := by
  simp only [simN, stepT]
  exact upd_other _ _ _ (by omega)

theorem simN_K_stable (P : Params) (S : Solver) (Δs : ℕ → ℚ) (g : ℚ) (n : ℕ) {t : ℕ}
    (h : t ≤ n) : (simN P S Δs g (n + 1)).K t = (simN P S Δs g n).K t := by
  simp only [simN, stepT]
  exact upd_other _ _ _ (by omega)

theorem simN_B_stable (P : Params) (S : Solver) (Δs : ℕ → ℚ) (g : ℚ) (n : ℕ) {t : ℕ}
    (h : t ≤ n) : (simN P S Δs g (n + 1)).B t = (simN P S Δs g n).B t := by
  simp only [simN, stepT]
  exact upd_other _ _ _ (by omega)

theorem simN_q_stable_le (P : Params) (S : Solver) (Δs : ℕ → ℚ) (g : ℚ) {n m t : ℕ}
    (hnm : n ≤ m) (h : t ≤ n + 1) : (simN P S Δs g m).q t = (simN P S Δs g n).q t := by
  induction m, hnm using Nat.le_induction with
  | base => rfl
  | succ m hm ih =>
      rw [simN_q_stable P S Δs g m (by omega)]
      exact ih

theorem simN_K_stable_le (P : Params) (S : Solver) (Δs : ℕ → ℚ) (g : ℚ) {n m t : ℕ}
    (hnm : n ≤ m) (h : t ≤ n) : (simN P S Δs g m).K t = (simN P S Δs g n).K t := by
  induction m, hnm using Nat.le_induction with
  | base => rfl
  | succ m hm ih =>
      rw [simN_K_stable P S Δs g m (by omega)]
      exact ih

theorem simN_B_stable_le (P : Params) (S : Solver) (Δs : ℕ → ℚ) (g : ℚ) {n m t : ℕ}
    (hnm : n ≤ m) (h : t ≤ n) : (simN P S Δs g m).B t = (simN P S Δs g n).B t := by
  induction m, hnm using Nat.le_induction with
  | base => rfl
  | succ m hm ih =>
      rw [simN_B_stable P S Δs g m (by omega)]
      exact ih

theorem simN_q_write (P : Params) (S : Solver) (Δs : ℕ → ℚ) (g : ℚ) (n : ℕ) :
    (simN P S Δs g (n + 1)).q (n + 2) =
      (S (fResid P ((simN P S Δs g n).K n) ((simN P S Δs g n).B n)
        ((simN P S Δs g n).q (n + 1)) (Δs (n + 1))) (q_star P, K_star P, B_star P)).1 := by
  simp only [simN, stepT, Nat.add_sub_cancel]
  exact upd_self _ _ _

theorem simN_K_write (P : Params) (S : Solver) (Δs : ℕ → ℚ) (g : ℚ) (n : ℕ) :
    (simN P S Δs g (n + 1)).K (n + 1) =
      (S (fResid P ((simN P S Δs g n).K n) ((simN P S Δs g n).B n)
        ((simN P S Δs g n).q (n + 1)) (Δs (n + 1))) (q_star P, K_star P, B_star P)).2.1 := by
  simp only [simN, stepT, Nat.add_sub_cancel]
  exact upd_self _ _ _

theorem simN_B_write (P : Params) (S : Solver) (Δs : ℕ → ℚ) (g : ℚ) (n : ℕ) :
    (simN P S Δs g (n + 1)).B (n + 1) =
      (S (fResid P ((simN P S Δs g n).K n) ((simN P S Δs g n).B n)
        ((simN P S Δs g n).q (n + 1)) (Δs (n + 1))) (q_star P, K_star P, B_star P)).2.2 := by
  simp only [simN, stepT, Nat.add_sub_cancel]
  exact upd_self _ _ _

theorem simN_K_high (P : Params) (S : Solver) (Δs : ℕ → ℚ) (g : ℚ) (n : ℕ) {t : ℕ}
    (h : n < t) : (simN P S Δs g n).K t = 0 := by
  induction n with
  | zero =>
      show upd (fun _ => 0) 0 (K_star P) t = 0
      rw [upd_other _ _ _ (by omega)]
  | succ n ih =>
      simp only [simN, stepT]
      rw [upd_other _ _ _ (by omega)]
      exact ih (by omega)

theorem simN_B_high (P : Params) (S : Solver) (Δs : ℕ → ℚ) (g : ℚ) (n : ℕ) {t : ℕ}
    (h : n < t) : (simN P S Δs g n).B t = 0 := by
  induction n with
  | zero =>
      show upd (fun _ => 0) 0 (B_star P) t = 0
      rw [upd_other _ _ _ (by omega)]
  | succ n ih =>
      simp only [simN, stepT]
      rw [upd_other _ _ _ (by omega)]
      exact ih (by omega)

theorem simulate_q_zero (P : Params) (S : Solver) (Δs : ℕ → ℚ) (g : ℚ) :
    (simulate P S Δs g).q 0 = q_star P := by
  rw [simulate, simN_q_stable_le P S Δs g (Nat.zero_le _) (by omega)]
  show upd (upd (fun _ => 0) 1 g) 0 (q_star P) 0 = q_star P
  exact upd_self _ _ _

theorem simulate_q_one (P : Params) (S : Solver) (Δs : ℕ → ℚ) (g : ℚ) :
    (simulate P S Δs g).q 1 = g := by
  rw [simulate, simN_q_stable_le P S Δs g (Nat.zero_le _) (by omega)]
  show upd (upd (fun _ => 0) 1 g) 0 (q_star P) 1 = g
  rw [upd_other _ _ _ (by omega)]
  exact upd_self _ _ _

theorem simulate_K_zero (P : Params) (S : Solver) (Δs : ℕ → ℚ) (g : ℚ) :
    (simulate P S Δs g).K 0 = K_star P := by
  rw [simulate, simN_K_stable_le P S Δs g (Nat.zero_le _) (by omega)]
  show upd (fun _ => 0) 0 (K_star P) 0 = K_star P
  exact upd_self _ _ _

theorem simulate_B_zero (P : Params) (S : Solver) (Δs : ℕ → ℚ) (g : ℚ) :
    (simulate P S Δs g).B 0 = B_star P := by
  rw [simulate, simN_B_stable_le P S Δs g (Nat.zero_le _) (by omega)]
  show upd (fun _ => 0) 0 (B_star P) 0 = B_star P
  exact upd_self _ _ _

theorem simulate_step (P : Params) (S : Solver) (Δs : ℕ → ℚ) (g : ℚ) {t : ℕ}
    (h1 : 1 ≤ t) (h2 : t ≤ periods - 2) :
    ((simulate P S Δs g).q (t + 1), (simulate P S Δs g).K t, (simulate P S Δs g).B t) =
      S (fResid P ((simulate P S Δs g).K (t - 1)) ((simulate P S Δs g).B (t - 1))
        ((simulate P S Δs g).q t) (Δs t)) (q_star P, K_star P, B_star P) := by
  obtain ⟨m, rfl⟩ : ∃ m, t = m + 1 := ⟨t - 1, by omega⟩
  have hp : periods - 2 = 99 := by norm_num [periods]
  have h2' : m + 1 ≤ 99 := by omega
  rw [simulate, hp]
  have eq_q : (simN P S Δs g 99).q (m + 1 + 1) = (simN P S Δs g (m + 1)).q (m + 1 + 1) :=
    simN_q_stable_le P S Δs g h2' (by omega)
  have eq_K : (simN P S Δs g 99).K (m + 1) = (simN P S Δs g (m + 1)).K (m + 1) :=
    simN_K_stable_le P S Δs g h2' (le_refl _)
  have eq_B : (simN P S Δs g 99).B (m + 1) = (simN P S Δs g (m + 1)).B (m + 1) :=
    simN_B_stable_le P S Δs g h2' (le_refl _)
  have eq_Kp : (simN P S Δs g 99).K m = (simN P S Δs g m).K m :=
    simN_K_stable_le P S Δs g (by omega) (le_refl _)
  have eq_Bp : (simN P S Δs g 99).B m = (simN P S Δs g m).B m :=
    simN_B_stable_le P S Δs g (by omega) (le_refl _)
  have eq_qt : (simN P S Δs g 99).q (m + 1) = (simN P S Δs g m).q (m + 1) :=
    simN_q_stable_le P S Δs g (by omega) (le_refl _)
  rw [Nat.add_sub_cancel, eq_q, eq_K, eq_B, eq_Kp, eq_Bp, eq_qt,
    simN_q_write, simN_K_write, simN_B_write]

end KM1997

namespace KM1997

theorem foldl_min_le_init (t : List ℚ) (x : ℚ) : t.foldl min x ≤ x := by
  induction t generalizing x with
  | nil => exact le_refl x
  | cons z t ih =>
      simp only [List.foldl_cons]
      exact le_trans (ih (min x z)) (min_le_left x z)

theorem foldl_min_le_mem (t : List ℚ) (x : ℚ) {y : ℚ} (h : y ∈ t) : t.foldl min x ≤ y := by
  induction t generalizing x with
  | nil => cases h
  | cons z t ih =>
      simp only [List.foldl_cons]
      rcases List.mem_cons.mp h with h1 | h1
      · subst h1
        exact le_trans (foldl_min_le_init t (min x y)) (min_le_right x y)
      · exact ih (min x z) h1

theorem foldl_min_mem_or (t : List ℚ) (x : ℚ) : t.foldl min x = x ∨ t.foldl min x ∈ t := by
  induction t generalizing x with
  | nil => exact Or.inl rfl
  | cons z t ih =>
      simp only [List.foldl_cons]
      rcases ih (min x z) with h | h
      · rcases min_choice x z with h2 | h2
        · exact Or.inl (h.trans h2)
        · refine Or.inr ?_
          rw [h, h2]
          exact List.mem_cons_self z t
      · exact Or.inr (List.mem_cons_of_mem z h)

theorem npMin_le {l : List ℚ} {y : ℚ} (h : y ∈ l) : npMin l ≤ y := by
  match l with
  | [] => cases h
  | x :: t =>
      show t.foldl min x ≤ y
      rcases List.mem_cons.mp h with h1 | h1
      · subst h1; exact foldl_min_le_init t y
      · exact foldl_min_le_mem t x h1

theorem npMin_mem {l : List ℚ} (h : l ≠ []) : npMin l ∈ l := by
  match l with
  | [] => exact absurd rfl h
  | x :: t =>
      show t.foldl min x ∈ x :: t
      rcases foldl_min_mem_or t x with h1 | h1
      · rw [h1]; exact List.mem_cons_self x t
      · exact List.mem_cons_of_mem x h1

theorem firstIdxOf_lt_length {m : ℚ} {l : List ℚ} (h : m ∈ l) :
    firstIdxOf m l < l.length := by
  induction l with
  | nil => cases h
  | cons x t ih =>
      simp only [firstIdxOf, List.length_cons]
      split
      · omega
      · rename_i hx
        have h' : m ∈ t := by
          rcases List.mem_cons.mp h with h1 | h1
          · exact absurd h1.symm hx
          · exact h1
        exact Nat.succ_lt_succ (ih h')

theorem firstIdxOf_getD {m : ℚ} {l : List ℚ} (h : m ∈ l) :
    l.getD (firstIdxOf m l) 0 = m := by
  induction l with
  | nil => cases h
  | cons x t ih =>
      by_cases hx : x = m
      · simp [firstIdxOf, hx]
      · have h' : m ∈ t := by
          rcases List.mem_cons.mp h with h1 | h1
          · exact absurd h1.symm hx
          · exact h1
        simp only [firstIdxOf, if_neg hx, List.getD_cons_succ]
        exact ih h'

theorem firstIdxOf_le {m : ℚ} {l : List ℚ} {j : ℕ} (hj : j < l.length)
    (h : l.getD j 0 = m) : firstIdxOf m l ≤ j := by
  induction l generalizing j with
  | nil => simp at hj
  | cons x t ih =>
      match j with
      | 0 =>
          simp only [List.getD_cons_zero] at h
          simp [firstIdxOf, h]
      | j + 1 =>
          simp only [firstIdxOf]
          split
          · omega
          · simp only [List.getD_cons_succ] at h
            have := ih (by simpa using Nat.lt_of_succ_lt_succ hj) h
            omega

theorem scoresList_length (S : Solver) : (scoresList S).length = trials :=
  List.length_ofFn _

theorem scoresList_ne_nil (S : Solver) : scoresList S ≠ [] := by
  intro h
  have hl := scoresList_length S
  rw [h] at hl
  simp [trials] at hl

theorem scoresList_getD (S : Solver) {j : ℕ} (hj : j < trials) :
    (scoresList S).getD j 0 = q_vec_abs S j := by
  rw [scoresList, List.getD_eq_getElem _ _ (by rw [List.length_ofFn]; exact hj),
    List.getElem_ofFn]

theorem mem_scoresList (S : Solver) {j : ℕ} (hj : j < trials) :
    q_vec_abs S j ∈ scoresList S := by
  rw [scoresList, List.mem_ofFn]
  exact ⟨⟨j, hj⟩, rfl⟩

theorem searchIndex_lt (S : Solver) : searchIndex S < trials := by
  have h := firstIdxOf_lt_length (npMin_mem (scoresList_ne_nil S))
  rw [scoresList_length] at h
  exact h

theorem q_vec_abs_searchIndex (S : Solver) :
    q_vec_abs S (searchIndex S) = npMin (scoresList S) := by
  have hlt : searchIndex S < trials := searchIndex_lt S
  rw [searchIndex, selectIdx] at hlt ⊢
  rw [← scoresList_getD S hlt]
  exact firstIdxOf_getD (npMin_mem (scoresList_ne_nil S))

end KM1997

namespace KM1997

set_option maxHeartbeats 1000000 in
theorem fResid_steady_zero (P : Params) (hR0 : P.R ≠ 0) (hR1 : P.R ≠ 1)
    (hM : q_star_den P ≠ 0) (hD : P.ϕ + q_star P - q_star P / P.R ≠ 0) :
    fResid P (K_star P) (B_star P) (q_star P) 0
      (q_star P, K_star P, B_star P) = (0, 0, 0) := by
  have hR1' : P.R - 1 ≠ 0 := sub_ne_zero.mpr hR1
  have eD : P.ϕ + q_star P - q_star P / P.R =
      P.π * (P.a + P.lam * P.ϕ) / q_star_den P := by
    rw [q_star, q_star_den]
    rw [q_star_den] at hM
    field_simp
    ring
  have hπal : P.π * (P.a + P.lam * P.ϕ) ≠ 0 := by
    intro h
    apply hD
    rw [eD, h, zero_div]
  refine Prod.ext ?_ (Prod.ext ?_ ?_)
  · show -(q_star P - P.R * q_star P + P.R * (K_star P - ν P)) = 0
    rw [K_star]
    field_simp
    ring
  · show -(K_star P - (1 - P.π) * P.lam * K_star P -
      (P.π / (P.ϕ + q_star P - q_star P / P.R)) *
        ((P.a + 0 + q_star P + P.lam * P.ϕ) * K_star P - P.R * B_star P)) = 0
    have key : P.π / (P.ϕ + q_star P - q_star P / P.R) *
        ((P.a + 0 + q_star P + P.lam * P.ϕ) -
          P.R * ((1 / (P.R - 1)) * (P.a - P.ϕ + P.lam * P.ϕ))) =
        1 - (1 - P.π) * P.lam := by
      rw [eD, q_star, q_star_den]
      rw [q_star_den] at hM
      field_simp
      ring
    rw [B_star]
    linear_combination K_star P * key
  · show -(B_star P - P.R * B_star P - q_star P * (K_star P - K_star P) -
      P.ϕ * (K_star P - P.lam * K_star P) + (P.a + 0) * K_star P) = 0
    rw [B_star]
    field_simp
    ring

theorem q_star_ref_ne_zero : q_star refParams ≠ 0 := by
  norm_num [q_star, q_star_den, refParams]

theorem fResid_ref_steady :
    fResid refParams (K_star refParams) (B_star refParams) (q_star refParams) 0
      (q_star refParams, K_star refParams, B_star refParams) = (0, 0, 0) := by
  norm_num [fResid, B_star, K_star, ν, q_star, q_star_den, refParams]

theorem const_invariant (S : Solver)
    (hS : ∀ gf x0, gf x0 = ((0 : ℚ), (0 : ℚ), (0 : ℚ)) → S gf x0 = x0) (n : ℕ) :
    (∀ t ≤ n + 1, (simN refParams S Δzero (q_star refParams) n).q t = q_star refParams) ∧
    (∀ t ≤ n, (simN refParams S Δzero (q_star refParams) n).K t = K_star refParams ∧
      (simN refParams S Δzero (q_star refParams) n).B t = B_star refParams) := by
  induction n with
  | zero =>
      constructor
      · intro t ht
        interval_cases t <;> simp [simN, initTraj, upd]
      · intro t ht
        interval_cases t <;> simp [simN, initTraj, upd]
  | succ n ih =>
      have hK := (ih.2 n (le_refl n)).1
      have hB := (ih.2 n (le_refl n)).2
      have hq := ih.1 (n + 1) (le_refl (n + 1))
      have hsol : S (fResid refParams
            ((simN refParams S Δzero (q_star refParams) n).K n)
            ((simN refParams S Δzero (q_star refParams) n).B n)
            ((simN refParams S Δzero (q_star refParams) n).q (n + 1)) (Δzero (n + 1)))
          (q_star refParams, K_star refParams, B_star refParams) =
          (q_star refParams, K_star refParams, B_star refParams) := by
        rw [hK, hB, hq]
        exact hS _ _ fResid_ref_steady
      constructor
      · intro t ht
        by_cases hteq : t = n + 2
        · subst hteq
          rw [simN_q_write, hsol]
        · rw [simN_q_stable refParams S Δzero (q_star refParams) n (by omega)]
          exact ih.1 t (by omega)
      · intro t ht
        by_cases hteq : t = n + 1
        · subst hteq
          rw [simN_K_write, simN_B_write, hsol]
          exact ⟨rfl, rfl⟩
        · rw [simN_K_stable refParams S Δzero (q_star refParams) n (by omega),
            simN_B_stable refParams S Δzero (q_star refParams) n (by omega)]
          exact ih.2 t (by omega)

theorem firstIdxOf_zero {m : ℚ} {l : List ℚ} (hne : l ≠ []) (h : l.getD 0 0 = m) :
    firstIdxOf m l = 0 := by
  match l with
  | [] => exact absurd rfl hne
  | x :: t =>
      rw [List.getD_cons_zero] at h
      simp [firstIdxOf, h]

theorem solverBad_q_last (g : ℚ) :
    (simulate refParams solverBad Δt_run g).q (periods - 1) = q_star refParams := by
  have h := congrArg Prod.fst
    (@simulate_step refParams solverBad Δt_run g 99 (by omega) (by norm_num [periods]))
  exact h

theorem solverId_q_last (Δs : ℕ → ℚ) (g : ℚ) :
    (simulate refParams solverId Δs g).q (periods - 1) = q_star refParams := by
  have h := congrArg Prod.fst
    (@simulate_step refParams solverId Δs g 99 (by omega) (by norm_num [periods]))
  exact h

theorem q_vec_abs_solverBad (i : ℕ) : q_vec_abs solverBad i = 0 := by
  rw [q_vec_abs, solverBad_q_last, div_self q_star_ref_ne_zero]
  norm_num

theorem q_vec_abs_solverId (i : ℕ) : q_vec_abs solverId i = 0 := by
  rw [q_vec_abs, solverId_q_last, div_self q_star_ref_ne_zero]
  norm_num

theorem solverBad_K_one :
    (simulate refParams solverBad Δt_run (q_vec refParams 0)).K 1 = 0 := by
  have h := simN_K_write refParams solverBad Δt_run (q_vec refParams 0) 0
  simp only [Nat.zero_add] at h
  rw [simulate,
    simN_K_stable_le refParams solverBad Δt_run (q_vec refParams 0)
      (show 1 ≤ periods - 2 by norm_num [periods]) (le_refl 1), h]
  rfl

theorem npMin_of_zero_scores (S : Solver) (h : ∀ i : ℕ, q_vec_abs S i = 0) :
    npMin (scoresList S) = 0 := by
  have hall : ∀ x ∈ scoresList S, x = 0 := by
    intro x hx
    rw [scoresList, List.mem_ofFn] at hx
    rcases Set.mem_range.mp hx with ⟨i, hi⟩
    rw [← hi, h i]
  exact hall _ (npMin_mem (scoresList_ne_nil S))

theorem searchIndex_of_zero_scores (S : Solver) (h : ∀ i : ℕ, q_vec_abs S i = 0) :
    searchIndex S = 0 := by
  rw [searchIndex, selectIdx, npMin_of_zero_scores S h]
  apply firstIdxOf_zero (scoresList_ne_nil S)
  rw [scoresList_getD S (show 0 < trials by norm_num [trials])]
  exact h 0

end KM1997

namespace KM1997

/-- Claim C1: for every run of the search (any root-finder behaviour `S`), the
selected candidate's score `q_vec_abs` is ≤ the score of every other candidate
in the grid, and when several candidates attain the minimal score the smallest
grid index is selected. -/
theorem selection_minimal_first (S : Solver) (j : ℕ) (hj : j < trials) :
    q_vec_abs S (searchIndex S) ≤ q_vec_abs S j ∧
    (q_vec_abs S j = q_vec_abs S (searchIndex S) → searchIndex S ≤ j) := by
  constructor
  · rw [q_vec_abs_searchIndex]
    exact npMin_le (mem_scoresList S hj)
  · intro htie
    have hj0 : (scoresList S).getD j 0 = npMin (scoresList S) := by
      rw [scoresList_getD S hj, htie, q_vec_abs_searchIndex]
    exact firstIdxOf_le (by rw [scoresList_length]; exact hj) hj0

/-- Witness for C1 at the solver that returns its initial point and grid
index 0 (under this solver all scores are equal, so the tie-break fires). -/
theorem selection_minimal_first_witness :
    q_vec_abs solverId (searchIndex solverId) ≤ q_vec_abs solverId 0 ∧
    searchIndex solverId ≤ 0 := by
  have h := selection_minimal_first solverId 0 (by norm_num [trials])
  refine ⟨h.1, h.2 ?_⟩
  rw [q_vec_abs_solverId, q_vec_abs_solverId]

/-- Claim C2: for every structural parameter record for which the steady state
is defined (`R ≠ 0`, `R ≠ 1`, `η ≠ 0`, nonzero `q_star` denominator, and
nondegenerate Eq2 denominator at the steady state), the steady-state triple is
a fixed point of the per-period system: with previous state `(K*, B*)`, current
price `q*`, zero shock and next-period price `q*`, the residuals of Eq1, Eq2
and Eq3 all evaluate exactly to zero. -/
theorem steady_state_fixed_point (P : Params) (hR0 : P.R ≠ 0) (hR1 : P.R ≠ 1)
    (hη : P.η ≠ 0) (hM : q_star_den P ≠ 0)
    (hD : P.ϕ + q_star P - q_star P / P.R ≠ 0) :
    fResid P (K_star P) (B_star P) (q_star P) 0
      (q_star P, K_star P, B_star P) = (0, 0, 0) :=
  fResid_steady_zero P hR0 hR1 hM hD

/-- Witness for C2 at the reference parameter values. -/
theorem steady_state_fixed_point_witness :
    refParams.R ≠ 0 ∧ refParams.R ≠ 1 ∧ refParams.η ≠ 0 ∧ q_star_den refParams ≠ 0 ∧
    refParams.ϕ + q_star refParams - q_star refParams / refParams.R ≠ 0 ∧
    fResid refParams (K_star refParams) (B_star refParams) (q_star refParams) 0
      (q_star refParams, K_star refParams, B_star refParams) = (0, 0, 0) :=
  ⟨by norm_num [refParams], by norm_num [refParams], by norm_num [refParams],
    by norm_num [q_star_den, refParams], by norm_num [q_star, q_star_den, refParams],
    steady_state_fixed_point refParams (by norm_num [refParams]) (by norm_num [refParams])
      (by norm_num [refParams]) (by norm_num [q_star_den, refParams])
      (by norm_num [q_star, q_star_den, refParams])⟩

/-- Claim C3: for every structural parameter record with `R ≠ 1`, `η ≠ 0` and
nonzero denominator, the steady-state calculator returns exactly the
specification's closed-form formulas (the source definitions coincide
definitionally with `steadyStateSpecForm`, a pure function: no iteration, no
side effects). -/
theorem steady_state_closed_form (P : Params) (hR1 : P.R ≠ 1) (hη : P.η ≠ 0)
    (hM : q_star_den P ≠ 0) :
    (q_star P, ν P, K_star P, B_star P) = steadyStateSpecForm P := rfl

/-- Witness for C3 at the reference parameter values. -/
theorem steady_state_closed_form_witness :
    refParams.R ≠ 1 ∧ refParams.η ≠ 0 ∧ q_star_den refParams ≠ 0 ∧
    (q_star refParams, ν refParams, K_star refParams, B_star refParams) =
      steadyStateSpecForm refParams :=
  ⟨by norm_num [refParams], by norm_num [refParams], by norm_num [q_star_den, refParams],
    steady_state_closed_form refParams (by norm_num [refParams]) (by norm_num [refParams])
      (by norm_num [q_star_den, refParams])⟩

/-- Claim C4: for every solver behaviour and every guess, the trajectory pins
period 0 to `(q*, K*, B*)`, sets the period-1 price to the guess, and for each
`t` in `1 … periods-2` the triple stored at indices `(t+1, t, t)` is the
solver's output on the three-equation system built from the previous state
`(K_{t-1}, B_{t-1})`, the known current price `q_t` and the shock `Δ_t`, from
the steady-state initial point. -/
theorem simulate_structure (S : Solver) (g : ℚ) (t : ℕ) (h1 : 1 ≤ t)
    (h2 : t ≤ periods - 2) :
    (simulate refParams S Δt_run g).q 0 = q_star refParams ∧
    (simulate refParams S Δt_run g).q 1 = g ∧
    (simulate refParams S Δt_run g).K 0 = K_star refParams ∧
    (simulate refParams S Δt_run g).B 0 = B_star refParams ∧
    ((simulate refParams S Δt_run g).q (t + 1), (simulate refParams S Δt_run g).K t,
      (simulate refParams S Δt_run g).B t) =
      S (fResid refParams ((simulate refParams S Δt_run g).K (t - 1))
          ((simulate refParams S Δt_run g).B (t - 1))
          ((simulate refParams S Δt_run g).q t) (Δt_run t))
        (q_star refParams, K_star refParams, B_star refParams) :=
  ⟨simulate_q_zero refParams S Δt_run g, simulate_q_one refParams S Δt_run g,
    simulate_K_zero refParams S Δt_run g, simulate_B_zero refParams S Δt_run g,
    simulate_step refParams S Δt_run g h1 h2⟩

/-- Witness for C4 at the identity-like solver, guess 55, period `t = 1`. -/
theorem simulate_structure_witness :
    (simulate refParams solverId Δt_run 55).q 0 = q_star refParams ∧
    (simulate refParams solverId Δt_run 55).q 1 = 55 ∧
    (simulate refParams solverId Δt_run 55).K 0 = K_star refParams ∧
    (simulate refParams solverId Δt_run 55).B 0 = B_star refParams ∧
    ((simulate refParams solverId Δt_run 55).q 2, (simulate refParams solverId Δt_run 55).K 1,
      (simulate refParams solverId Δt_run 55).B 1) =
      solverId (fResid refParams ((simulate refParams solverId Δt_run 55).K 0)
          ((simulate refParams solverId Δt_run 55).B 0)
          ((simulate refParams solverId Δt_run 55).q 1) (Δt_run 1))
        (q_star refParams, K_star refParams, B_star refParams) :=
  simulate_structure solverId 55 1 (by norm_num) (by norm_num [periods])

/-- Claim C5: the guess grid has exactly `trials = 1000` entries, is strictly
increasing, starts at `q_star * (1.0037 - 0.0005)`, ends at
`q_star * (1.0037 + 0.0005)`, and is evenly spaced. -/
theorem guess_grid_properties :
    gridList.length = trials ∧
    (∀ i j : ℕ, i < j → j < trials → q_vec refParams i < q_vec refParams j) ∧
    q_vec refParams 0 = q_star refParams * (1.0037 - 0.0005) ∧
    q_vec refParams (trials - 1) = q_star refParams * (1.0037 + 0.0005) ∧
    (∀ i : ℕ, i + 1 < trials →
      q_vec refParams (i + 1) - q_vec refParams i =
        (q_star refParams * (1.0037 + 0.0005) - q_star refParams * (1.0037 - 0.0005)) /
          ((trials : ℚ) - 1)) := by
  refine ⟨List.length_ofFn _, ?_, ?_, ?_, ?_⟩
  · intro i j hij hjt
    rw [q_vec, q_vec]
    have hij' : (i : ℚ) < (j : ℚ) := by exact_mod_cast hij
    have hpos : (0 : ℚ) <
        q_star refParams * (1.0037 + 0.0005) - q_star refParams * (1.0037 - 0.0005) := by
      norm_num [q_star, q_star_den, refParams]
    have ht : (0 : ℚ) < (trials : ℚ) - 1 := by norm_num [trials]
    apply add_lt_add_left
    apply div_lt_div_of_pos_right ?_ ht
    exact mul_lt_mul_of_pos_left hij' hpos
  · norm_num [q_vec]
  · norm_num [q_vec, q_star, q_star_den, refParams, trials]
  · intro i hi
    rw [q_vec, q_vec]
    have ht : ((trials : ℚ) - 1) ≠ 0 := by norm_num [trials]
    push_cast
    field_simp
    ring

/-- Witness for C5: grid length, a strict increase between the first two
entries, and the left endpoint. -/
theorem guess_grid_properties_witness :
    gridList.length = trials ∧ q_vec refParams 0 < q_vec refParams 1 ∧
    q_vec refParams 0 = q_star refParams * (1.0037 - 0.0005) :=
  ⟨guess_grid_properties.1,
    guess_grid_properties.2.1 0 1 (by norm_num) (by norm_num [trials]),
    guess_grid_properties.2.2.1⟩

end KM1997

namespace KM1997

set_option maxHeartbeats 1000000 in
/-- Claim C6 counterexample: under a solver behaviour on which every
period-1 solve returns a triple that does not satisfy the three equations
(`fsolve` returning a non-converged last iterate), the search still selects
winner index 0 instead of excluding the trajectories or failing: the code has
no Invalid marking and no `SearchExhaustedError`. -/
theorem search_includes_nonconverged :
    searchIndex solverBad = 0 ∧
    (simulate refParams solverBad Δt_run (q_vec refParams 0)).K 1 = 0 ∧
    fResid refParams (K_star refParams) (B_star refParams) (q_vec refParams 0) (Δt_run 1)
      (solverBad (fResid refParams (K_star refParams) (B_star refParams)
          (q_vec refParams 0) (Δt_run 1))
        (q_star refParams, K_star refParams, B_star refParams)) ≠ (0, 0, 0) := by
  refine ⟨searchIndex_of_zero_scores solverBad q_vec_abs_solverBad, solverBad_K_one, ?_⟩
  norm_num [solverBad, fResid, Δt_run, q_vec, B_star, K_star, ν, q_star, q_star_den,
    refParams, trials, Prod.mk.injEq]

/-- Claim C6 (amended): the per-period solver has no failure channel in the
code — its output is used unconditionally, every guess's score enters the
comparison, and for any solver behaviour the search always returns a winning
index inside the grid; no exclusion and no exhaustion failure exist. -/
theorem search_always_selects (S : Solver) :
    searchIndex S < trials ∧
    ∀ j : ℕ, j < trials → q_vec_abs S (searchIndex S) ≤ q_vec_abs S j := by
  refine ⟨searchIndex_lt S, fun j hj => ?_⟩
  rw [q_vec_abs_searchIndex]
  exact npMin_le (mem_scoresList S hj)

/-- Witness for the amended C6 at the non-converging solver behaviour and
grid index 5. -/
theorem search_always_selects_witness :
    searchIndex solverBad < trials ∧
    q_vec_abs solverBad (searchIndex solverBad) ≤ q_vec_abs solverBad 5 :=
  ⟨(search_always_selects solverBad).1,
    (search_always_selects solverBad).2 5 (by norm_num [trials])⟩

/-- Claim C7: steady-state computation with invalid structural parameters —
`R = 1`, `η = 0`, or a zero denominator `λπ + (1-λ)(1-R+πR)` — fails with a
`DomainError` (Python's `ZeroDivisionError`) and in particular never returns
a value. -/
theorem steady_state_domain_error (P : Params)
    (h : P.R = 1 ∨ P.η = 0 ∨ q_star_den P = 0) :
    steadyStateChecked P = Except.error DomainError.divByZero := by
  unfold steadyStateChecked
  split_ifs <;> simp_all

/-- Witness for C7: the reference parameters with `R = 1`. -/
theorem steady_state_domain_error_witness :
    (({ refParams with R := 1 } : Params).R = 1 ∨
      ({ refParams with R := 1 } : Params).η = 0 ∨
      q_star_den { refParams with R := 1 } = 0) ∧
    steadyStateChecked { refParams with R := 1 } =
      Except.error DomainError.divByZero :=
  ⟨Or.inl rfl, steady_state_domain_error { refParams with R := 1 } (Or.inl rfl)⟩

/-- Claim C8 counterexample: with guess exactly `q_star`, an all-zero shock
schedule, and the exact-root solver behaviour, the trajectory is not constant
at `(q*, K*, B*)` over all periods `0 … 100`: the landholding entry at the
terminal period differs from `K_star`. -/
theorem no_shock_terminal_counterexample :
    (simulate refParams solverId Δzero (q_star refParams)).K (periods - 1) ≠
      K_star refParams := by
  rw [simulate,
    simN_K_high refParams solverId Δzero (q_star refParams) (periods - 2)
      (by norm_num [periods])]
  norm_num [K_star, ν, q_star, q_star_den, refParams]

/-- Claim C8 (amended): for any solver that returns its initial point whenever
that point already solves the system, a guess exactly `q_star` with all-zero
shocks yields the steady state everywhere the loop writes: price `q*` at all
periods `0 … 100` and `(K*, B*)` at periods `0 … 99`; the terminal landholding
and debt entries (index 100) are never written and stay `0`. -/
theorem no_shock_constant (S : Solver)
    (hS : ∀ gf x0, gf x0 = ((0 : ℚ), (0 : ℚ), (0 : ℚ)) → S gf x0 = x0) :
    (∀ t ≤ periods - 1,
      (simulate refParams S Δzero (q_star refParams)).q t = q_star refParams) ∧
    (∀ t ≤ periods - 2,
      (simulate refParams S Δzero (q_star refParams)).K t = K_star refParams ∧
      (simulate refParams S Δzero (q_star refParams)).B t = B_star refParams) ∧
    (simulate refParams S Δzero (q_star refParams)).K (periods - 1) = 0 ∧
    (simulate refParams S Δzero (q_star refParams)).B (periods - 1) = 0 := by
  have hinv := const_invariant S hS 99
  have hp1 : periods - 1 = 100 := by norm_num [periods]
  have hp2 : periods - 2 = 99 := by norm_num [periods]
  refine ⟨?_, ?_, ?_, ?_⟩
  · intro t ht
    rw [hp1] at ht
    rw [simulate, hp2]
    exact hinv.1 t (by omega)
  · intro t ht
    rw [hp2] at ht
    rw [simulate, hp2]
    exact hinv.2 t ht
  · rw [simulate]
    exact simN_K_high refParams S Δzero (q_star refParams) (periods - 2)
      (by norm_num [periods])
  · rw [simulate]
    exact simN_B_high refParams S Δzero (q_star refParams) (periods - 2)
      (by norm_num [periods])

/-- Witness for the amended C8 at the exact-root solver behaviour. -/
theorem no_shock_constant_witness :
    (simulate refParams solverId Δzero (q_star refParams)).q 100 = q_star refParams ∧
    (simulate refParams solverId Δzero (q_star refParams)).K 99 = K_star refParams := by
  have h := no_shock_constant solverId (fun _ _ _ => rfl)
  exact ⟨h.1 100 (by norm_num [periods]), (h.2.1 99 (by norm_num [periods])).1⟩

/-- Claim C9: the search is a pure function of its inputs — two solvers with
identical input-output behaviour (a deterministic root-finder run twice)
produce identical search results: the same winning index, winning guess,
score, and winning trajectory arrays. -/
theorem search_deterministic (S1 S2 : Solver) (h : ∀ gf x0, S1 gf x0 = S2 gf x0) :
    searchResult S1 = searchResult S2 := by
  have hS : S1 = S2 := funext fun gf => funext fun x0 => h gf x0
  rw [hS]

/-- Witness for C9 at the identity-like solver. -/
theorem search_deterministic_witness :
    searchResult solverId = searchResult solverId :=
  search_deterministic solverId solverId (fun _ _ => rfl)

/-- Claim C10: for every solver behaviour and guess, after the loop the
terminal (index `periods - 1 = 100`) landholding and debt entries still hold
their initialisation value 0 — the loop writes `K`, `B` only at `1 … 99` —
while the terminal price is the value produced by the last (t = 99) solve. -/
theorem terminal_frame (S : Solver) (g : ℚ) :
    (simulate refParams S Δt_run g).K (periods - 1) = 0 ∧
    (simulate refParams S Δt_run g).B (periods - 1) = 0 ∧
    (simulate refParams S Δt_run g).q (periods - 1) =
      (S (fResid refParams ((simulate refParams S Δt_run g).K (periods - 3))
          ((simulate refParams S Δt_run g).B (periods - 3))
          ((simulate refParams S Δt_run g).q (periods - 2)) (Δt_run (periods - 2)))
        (q_star refParams, K_star refParams, B_star refParams)).1 := by
  have hp1 : periods - 1 = 100 := by norm_num [periods]
  have hp2 : periods - 2 = 99 := by norm_num [periods]
  have hp3 : periods - 3 = 98 := by norm_num [periods]
  refine ⟨?_, ?_, ?_⟩
  · rw [simulate]
    exact simN_K_high refParams S Δt_run g (periods - 2) (by norm_num [periods])
  · rw [simulate]
    exact simN_B_high refParams S Δt_run g (periods - 2) (by norm_num [periods])
  · rw [hp1, hp2, hp3]
    exact congrArg Prod.fst
      (@simulate_step refParams S Δt_run g 99 (by omega) (by norm_num [periods]))

end KM1997
